import Mathlib

/-!
Shallow embedding of the miniapp backend (src/main.py, src/models.py).

The backend keeps three SQL tables (models.py): `users` (keyed by a BigInteger
id, with two Float balance columns), `games` (append-only log keyed by a string
id), and `safe_sessions` (keyed by a string id).  We model the keyed tables as
functions from the key to `Option row` (exactly the semantics of a table with
a primary key), the log as a list in insertion order, and monetary amounts as
rationals.  The process-wide dict `user_balances_cache` (main.py line 95) is a
function from user id to an optional pair of balances.

Each HTTP handler becomes a function `St → args → St × Outcome`.  Randomness
(`random()`, `randint(0,9)`) and uuid generation are passed in as explicit
arguments.  `Outcome.err n` models `raise HTTPException(status_code=n)`;
`Outcome.crash` models an unhandled Python exception (a 500 with whatever
partial state the autocommitting `database.execute` calls left behind —
the `databases` library commits each execute individually, there is no
surrounding transaction anywhere in main.py).
-/

namespace MiniApp

/-- A row of the `users` table (models.py lines 6-13). -/
structure UserRow where
  username : String
  ton_balance : ℚ
  usdt_balance : ℚ
deriving DecidableEq

/-- A row of the `games` table (models.py lines 15-25); the timestamp column is
represented by the position in the insertion-ordered list. -/
structure GameRow where
  id : String
  user_id : ℤ
  game : String
  bet : ℚ
  result : String
  win : Bool
deriving DecidableEq

/-- A row of the `safe_sessions` table (models.py lines 27-39), minus the id
(which is the key) and the server-assigned timestamp. -/
structure SafeSession where
  user_id : ℤ
  currency : String
  bet : ℚ
  code : List ℤ
  attempts : ℕ
  used_hint : Bool
  is_finished : Bool
deriving DecidableEq

/-- The database: the three tables of models.py. -/
structure DB where
  users : ℤ → Option UserRow
  games : List GameRow
  sessions : String → Option SafeSession

/-- Full process state: the database plus the in-memory
`user_balances_cache` dict (main.py line 95). -/
structure St where
  db : DB
  cache : ℤ → Option (ℚ × ℚ)

/-- Responses returned by the handlers (the JSON bodies of main.py). -/
inductive Resp where
  | balances (ton usdt : ℚ)
  | statusMsg (s : String)
  | prizeAdded (new_balance : ℚ)
  | coin (result : String) (win : Bool) (prize : ℚ)
  | boxes (win : Bool) (prize : ℚ) (chosenBox winningBox : ℤ)
  | safeStarted (session_id : String)
  | guessWin (prize : ℚ) (code : List ℤ)
  | guessLose (code : List ℤ)
  | tryAgain (attempts_left : ℕ)
  | hintResp (hint : ℤ) (cost : ℚ)
  | subUpdate (ton usdt : ℚ)
  | subNoUpdate
  | gamesList (rows : List GameRow)
deriving DecidableEq

/-- Result of a handler: a JSON response, an `HTTPException` with its status
code, or an unhandled Python exception (500). -/
inductive Outcome where
  | ok (r : Resp)
  | err (status : ℕ)
  | crash
deriving DecidableEq

/-- Python's `str.lower()` on the ASCII currency and choice strings, written
character-by-character so that concrete instances reduce. -/
def strLower (s : String) : String := ⟨s.data.map Char.toLower⟩

/-- `balance_col` selection: `users.c.ton_balance if currency == "ton" else
users.c.usdt_balance` (main.py lines 124, 140, 258, ...). -/
def getBal (u : UserRow) (cur : String) : ℚ :=
  if cur = "ton" then u.ton_balance else u.usdt_balance

/-- Writing through the selected balance column. -/
def setBal (u : UserRow) (cur : String) (v : ℚ) : UserRow :=
  if cur = "ton" then { u with ton_balance := v } else { u with usdt_balance := v }

/-- `users.update().where(users.c.id == uid).values(...)`: rewrite the row with
the given key, if present. -/
def updUsers (f : UserRow → UserRow) (uid : ℤ) (us : ℤ → Option UserRow) :
    ℤ → Option UserRow :=
  fun i => if i = uid then (us i).map f else us i

/-- `safe_sessions.update().where(safe_sessions.c.id == sid).values(...)`. -/
def updSession (f : SafeSession → SafeSession) (sid : String)
    (ss : String → Option SafeSession) : String → Option SafeSession :=
  fun i => if i = sid then (ss i).map f else ss i

/-- `user_balances_cache[str(uid)] = {"ton": ..., "usdt": ...}`. -/
def putCache (c : ℤ → Option (ℚ × ℚ)) (uid : ℤ) (u : UserRow) :
    ℤ → Option (ℚ × ℚ) :=
  fun i => if i = uid then some (u.ton_balance, u.usdt_balance) else c i

/-- Python's `round` to 0 digits on an exact rational: round half to even. -/
def pyRound0 (q : ℚ) : ℤ :=
  if q - ⌊q⌋ < 1/2 then ⌊q⌋
  else if (1:ℚ)/2 < q - ⌊q⌋ then ⌊q⌋ + 1
  else if ⌊q⌋ % 2 = 0 then ⌊q⌋ else ⌊q⌋ + 1

/-- Python's `round(x, 2)` on an exact rational. -/
def round2 (q : ℚ) : ℚ := (pyRound0 (q * 100) : ℚ) / 100

/-- POST /init (main.py lines 105-118): idempotent insert with zero balances,
then re-read and return the stored balances. -/
def init_user (s : St) (uid : ℤ) (uname : String) : St × Outcome :=
  let db' : DB :=
    match s.db.users uid with
    | none => { s.db with users := fun i => if i = uid then some ⟨uname, 0, 0⟩ else s.db.users i }
    | some _ => s.db
  match db'.users uid with
  | none => ({ s with db := db' }, .err 500)
  | some u => ({ s with db := db' }, .ok (.balances u.ton_balance u.usdt_balance))

/-- POST /balance/add (main.py lines 120-132): unconditional
`col := col + amount` on the selected balance column, then a cache refresh;
the refresh subscripts the fetched row, so a missing user crashes the handler
after the (no-op) update. -/
def update_balance (s : St) (uid : ℤ) (cur : String) (amount : ℚ) : St × Outcome :=
  if cur = "ton" ∨ cur = "usdt" then
    let db' := { s.db with
      users := updUsers (fun u => setBal u cur (getBal u cur + amount)) uid s.db.users }
    match db'.users uid with
    | none => ({ s with db := db' }, .crash)
    | some u => ({ db := db', cache := putCache s.cache uid u }, .ok (.statusMsg "updated"))
  else (s, .err 400)

/-- POST /balance/prize (main.py lines 180-194): unconditional credit with
`RETURNING col`, cache refresh, returns the new balance of that column. -/
def add_prize (s : St) (uid : ℤ) (cur : String) (amount : ℚ) : St × Outcome :=
  if cur = "ton" ∨ cur = "usdt" then
    let db' := { s.db with
      users := updUsers (fun u => setBal u cur (getBal u cur + amount)) uid s.db.users }
    match db'.users uid with
    | none => ({ s with db := db' }, .crash)
    | some u => ({ db := db', cache := putCache s.cache uid u }, .ok (.prizeAdded (getBal u cur)))
  else (s, .err 400)

/-- GET /balance/{user_id} (main.py lines 202-207). -/
def get_balance (s : St) (uid : ℤ) : St × Outcome :=
  match s.db.users uid with
  | none => (s, .err 404)
  | some u => (s, .ok (.balances u.ton_balance u.usdt_balance))

/-- Shared tail of POST /game (main.py lines 161-178): insert the game row
(the string primary key makes a duplicate id an integrity error, modelled as a
crash with the balance mutation already committed), refresh the cache and
return `get_balance`. -/
def finishGame (s : St) (db1 : DB) (uid : ℤ) (gid gname : String) (bet : ℚ)
    (result : String) (win : Bool) : St × Outcome :=
  if db1.games.any (fun r => r.id == gid) then ({ s with db := db1 }, .crash)
  else
    let db2 := { db1 with games := db1.games ++ [⟨gid, uid, gname, bet, result, win⟩] }
    match db2.users uid with
    | none => ({ s with db := db2 }, .crash)
    | some u =>
      ({ db := db2, cache := putCache s.cache uid u }, .ok (.balances u.ton_balance u.usdt_balance))

/-- POST /game (main.py lines 134-178).  With `final=false` the stake debit is
a single conditional update (`WHERE id = uid AND col >= bet ... RETURNING`),
rejected with 400 when no row matches; with `final=true` a credit of
`prize_amount` is applied when `win ∧ prize_amount > 0`.  Then the game row is
inserted and the balances are returned. -/
def record_game (s : St) (uid : ℤ) (gname : String) (bet : ℚ) (result : String)
    (win : Bool) (cur0 : String) (prize_amount : ℚ) (final : Bool) (gid : String) :
    St × Outcome :=
  let cur := strLower cur0
  if cur = "ton" ∨ cur = "usdt" then
    if final = false then
      match s.db.users uid with
      | none => (s, .err 400)
      | some u =>
        if bet ≤ getBal u cur then
          let db1 := { s.db with
            users := updUsers (fun v => setBal v cur (getBal v cur - bet)) uid s.db.users }
          finishGame s db1 uid gid gname bet result win
        else (s, .err 400)
    else
      let db1 :=
        if win = true ∧ 0 < prize_amount then
          { s.db with
            users := updUsers (fun v => setBal v cur (getBal v cur + prize_amount)) uid s.db.users }
        else s.db
      finishGame s db1 uid gid gname bet result win
  else (s, .err 400)

/-- GET /games/{user_id} (main.py lines 196-200): the user's rows, newest
first (timestamp descending = reverse insertion order). -/
def get_games (s : St) (uid : ℤ) : St × Outcome :=
  (s, .ok (.gamesList ((s.db.games.filter (fun g => g.user_id == uid)).reverse)))

/-- The polling loop of POST /balance/subscribe (main.py lines 220-236),
30 iterations; within one request the embedded database does not change, so
every iteration reads the same row. -/
def subscribeLoop : ℕ → DB → ℤ → ℚ → ℚ → Outcome
  | 0, _, _, _, _ => .ok .subNoUpdate
  | n + 1, db, uid, cton, cusdt =>
    match db.users uid with
    | some u =>
      if round2 u.ton_balance ≠ cton ∨ round2 u.usdt_balance ≠ cusdt then
        .ok (.subUpdate (round2 u.ton_balance) (round2 u.usdt_balance))
      else subscribeLoop n db uid cton cusdt
    | none => subscribeLoop n db uid cton cusdt

/-- POST /balance/subscribe (main.py lines 212-237): client balances are
rounded to 2 digits on entry, database balances on every poll. -/
def subscribe_balance (s : St) (uid : ℤ) (cton cusdt : ℚ) : St × Outcome :=
  (s, subscribeLoop 30 s.db uid (round2 cton) (round2 cusdt))

/-- POST /balance/force (main.py lines 242-250). -/
def force_balance (s : St) (uid : ℤ) : St × Outcome :=
  match s.db.users uid with
  | none => (s, .err 404)
  | some u => (s, .ok (.balances u.ton_balance u.usdt_balance))

/-- POST /safe/start (main.py lines 252-307).  Validates currency, user and
balance; the balance debit of earlier revisions was removed (comment at line
269), so the balance is left unchanged.  Generates the code from three
`randint(0, 9)` draws (each draw modelled as an arbitrary natural seed taken
mod 10, so the stored digit is always in 0..9), inserts the session, refreshes
the cache, and inserts the pending game row sharing the session id. -/
def start_safe_game (s : St) (uid : ℤ) (cur0 : String) (bet : ℚ)
    (d1 d2 d3 : ℕ) (sid : String) : St × Outcome :=
  let cur := strLower cur0
  if cur = "ton" ∨ cur = "usdt" then
    match s.db.users uid with
    | none => (s, .err 404)
    | some u =>
      if getBal u cur < bet then (s, .err 400)
      else
        let code : List ℤ := [((d1 % 10 : ℕ) : ℤ), ((d2 % 10 : ℕ) : ℤ), ((d3 % 10 : ℕ) : ℤ)]
        if (s.db.sessions sid).isSome then (s, .crash)
        else
          let db1 := { s.db with
            sessions := fun i => if i = sid then
              some ⟨uid, cur, bet, code, 0, false, false⟩ else s.db.sessions i }
          let cache1 := putCache s.cache uid u
          if db1.games.any (fun g => g.id == sid) then ({ db := db1, cache := cache1 }, .crash)
          else
            let db2 := { db1 with
              games := db1.games ++ [⟨sid, uid, "Safe Cracker", bet, "pending", false⟩] }
            ({ db := db2, cache := cache1 }, .ok (.safeStarted sid))
  else (s, .err 400)

/-- POST /safe/guess (main.py lines 310-401).  Checks: session exists (404),
not finished (400), owned by caller (403), guess is a list of exactly 3
integers (400) — the digits are NOT range-checked — and attempts < 3 (400).
Then: on an exact list match, credit `bet * 10`, mark the game row win, finish
the session; on a wrong 3rd attempt, mark the game row lose and finish; else
increment attempts and return the remaining attempts. -/
def safe_guess (s : St) (sid : String) (uid : ℤ) (guess : List ℤ) : St × Outcome :=
  match s.db.sessions sid with
  | none => (s, .err 404)
  | some ses =>
    if ses.is_finished = true then (s, .err 400)
    else if ses.user_id ≠ uid then (s, .err 403)
    else if guess.length ≠ 3 then (s, .err 400)
    else if 3 ≤ ses.attempts then (s, .err 400)
    else
      let updated := ses.attempts + 1
      if guess = ses.code then
        let prize := ses.bet * 10
        let db1 := { s.db with
          users := updUsers (fun v => setBal v ses.currency (getBal v ses.currency + prize))
            uid s.db.users }
        let db2 := { db1 with
          games := db1.games.map (fun (g : GameRow) => if g.id = sid then
            { g with result := "win", win := true } else g) }
        let db3 := { db2 with
          sessions := updSession (fun t => { t with attempts := updated, is_finished := true })
            sid db2.sessions }
        match db3.users uid with
        | none => ({ s with db := db3 }, .crash)
        | some u =>
          ({ db := db3, cache := putCache s.cache uid u }, .ok (.guessWin prize ses.code))
      else if 3 ≤ updated then
        let db1 := { s.db with
          games := s.db.games.map (fun (g : GameRow) => if g.id = sid then
            { g with result := "lose", win := false } else g) }
        let db2 := { db1 with
          sessions := updSession (fun t => { t with attempts := updated, is_finished := true })
            sid db1.sessions }
        ({ s with db := db2 }, .ok (.guessLose ses.code))
      else
        let db1 := { s.db with
          sessions := updSession (fun t => { t with attempts := updated }) sid s.db.sessions }
        ({ s with db := db1 }, .ok (.tryAgain (3 - updated)))

/-- POST /safe/hint (main.py lines 403-455).  Checks: session exists (404),
not finished (400), hint unused (400), owned by caller (403); then fetches the
user (404) and requires balance ≥ the flat cost 1.0 (400).  On success: debit
1.0, set used_hint, refresh cache, return the first code digit and the cost. -/
def safe_hint (s : St) (sid : String) (uid : ℤ) : St × Outcome :=
  match s.db.sessions sid with
  | none => (s, .err 404)
  | some ses =>
    if ses.is_finished = true then (s, .err 400)
    else if ses.used_hint = true then (s, .err 400)
    else if ses.user_id ≠ uid then (s, .err 403)
    else
      let hint_cost : ℚ := 1
      match s.db.users uid with
      | none => (s, .err 404)
      | some u =>
        if getBal u ses.currency < hint_cost then (s, .err 400)
        else
          let db1 := { s.db with
            users := updUsers (fun v => setBal v ses.currency (getBal v ses.currency - hint_cost))
              uid s.db.users }
          let db2 := { db1 with
            sessions := updSession (fun t => { t with used_hint := true }) sid db1.sessions }
          match db2.users uid with
          | none => ({ s with db := db2 }, .crash)
          | some u' =>
            ({ db := db2, cache := putCache s.cache uid u' },
              .ok (.hintResp (ses.code.headD 0) hint_cost))

/-- POST /coin/start (main.py lines 463-524).  Validates choice then currency,
fetches the user (404), requires balance ≥ bet (400), debits the bet, draws
`is_win := random() < 2/12` (the draw `r` is an explicit argument), computes
the reported side and `prize = round(bet * 2, 2)` on win, credits on win,
inserts the completed game row, refreshes the cache. -/
def coin_start (s : St) (uid : ℤ) (cur0 : String) (bet : ℚ) (choice : String)
    (r : ℚ) (gid : String) : St × Outcome :=
  if choice = "heads" ∨ choice = "tails" then
    let cur := strLower cur0
    if cur = "ton" ∨ cur = "usdt" then
      match s.db.users uid with
      | none => (s, .err 404)
      | some u =>
        if getBal u cur < bet then (s, .err 400)
        else
          let db1 := { s.db with
            users := updUsers (fun v => setBal v cur (getBal v cur - bet)) uid s.db.users }
          let is_win := r < 2 / 12
          let result := if is_win then choice else if choice = "heads" then "tails" else "heads"
          let prize := if is_win then round2 (bet * 2) else 0
          let db2 :=
            if is_win then
              { db1 with
                users := updUsers (fun v => setBal v cur (getBal v cur + prize)) uid db1.users }
            else db1
          if db2.games.any (fun g => g.id == gid) then ({ s with db := db2 }, .crash)
          else
            let db3 := { db2 with
              games := db2.games ++
                [⟨gid, uid, "Coin", bet, if is_win then "win" else "lose", is_win⟩] }
            match db3.users uid with
            | none => ({ s with db := db3 }, .crash)
            | some u' =>
              ({ db := db3, cache := putCache s.cache uid u' },
                .ok (.coin result is_win prize))
    else (s, .err 400)
  else (s, .err 400)

/-- POST /boxes/start (main.py lines 530-596).  Validates currency, fetches
the user (404), requires balance ≥ bet (400) and commits the stake debit.
Then line 553 evaluates `random.random()`: but line 6 is
`from random import random`, so `random` is the function itself and the
attribute access raises AttributeError.  The handler therefore always crashes
right after the debit: no win draw, no credit, no game row, no rollback. -/
def boxes_start (s : St) (uid : ℤ) (cur0 : String) (bet : ℚ) (choice : ℤ) :
    St × Outcome :=
  let cur := strLower cur0
  if cur = "ton" ∨ cur = "usdt" then
    match s.db.users uid with
    | none => (s, .err 404)
    | some u =>
      if getBal u cur < bet then (s, .err 400)
      else
        let db1 := { s.db with
          users := updUsers (fun v => setBal v cur (getBal v cur - bet)) uid s.db.users }
        ({ s with db := db1 }, .crash)
  else (s, .err 400)

/-- One client request to any of the modelled endpoints, with its random draws
and generated ids made explicit. -/
inductive Op where
  | opInit (uid : ℤ) (uname : String)
  | balanceAdd (uid : ℤ) (cur : String) (amount : ℚ)
  | balancePrize (uid : ℤ) (cur : String) (amount : ℚ)
  | game (uid : ℤ) (gname : String) (bet : ℚ) (result : String) (win : Bool)
      (cur : String) (prize : ℚ) (final : Bool) (gid : String)
  | coin (uid : ℤ) (cur : String) (bet : ℚ) (choice : String) (r : ℚ) (gid : String)
  | boxes (uid : ℤ) (cur : String) (bet : ℚ) (choice : ℤ)
  | safeStart (uid : ℤ) (cur : String) (bet : ℚ) (d1 d2 d3 : ℕ) (sid : String)
  | safeGuess (sid : String) (uid : ℤ) (guess : List ℤ)
  | safeHint (sid : String) (uid : ℤ)
  | subscribe (uid : ℤ) (cton cusdt : ℚ)
  | getBalanceOp (uid : ℤ)
  | forceBalanceOp (uid : ℤ)
  | getGamesOp (uid : ℤ)

/-- Dispatch an operation to its handler. -/
def applyOp (s : St) : Op → St × Outcome
  | .opInit uid un => init_user s uid un
  | .balanceAdd uid cur a => update_balance s uid cur a
  | .balancePrize uid cur a => add_prize s uid cur a
  | .game uid g bet res w cur pr fin gid => record_game s uid g bet res w cur pr fin gid
  | .coin uid cur bet ch r gid => coin_start s uid cur bet ch r gid
  | .boxes uid cur bet ch => boxes_start s uid cur bet ch
  | .safeStart uid cur bet d1 d2 d3 sid => start_safe_game s uid cur bet d1 d2 d3 sid
  | .safeGuess sid uid g => safe_guess s sid uid g
  | .safeHint sid uid => safe_hint s sid uid
  | .subscribe uid a b => subscribe_balance s uid a b
  | .getBalanceOp uid => get_balance s uid
  | .forceBalanceOp uid => force_balance s uid
  | .getGamesOp uid => get_games s uid

/-- The client-supplied amounts of the operation are all non-negative. -/
def Op.nonneg : Op → Prop
  | .balanceAdd _ _ a => 0 ≤ a
  | .balancePrize _ _ a => 0 ≤ a
  | .game _ _ bet _ _ _ prize _ _ => 0 ≤ bet ∧ 0 ≤ prize
  | .coin _ _ bet _ _ _ => 0 ≤ bet
  | .boxes _ _ bet _ => 0 ≤ bet
  | .safeStart _ _ bet _ _ _ _ => 0 ≤ bet
  | _ => True

instance (op : Op) : Decidable op.nonneg := by
  cases op <;> simp only [Op.nonneg] <;> infer_instance

/-- The empty initial state: no users, no games, no sessions, empty cache. -/
def St0 : St := ⟨⟨fun _ => none, [], fun _ => none⟩, fun _ => none⟩

/-- Run a sequence of requests from a starting state. -/
def runOps (s : St) (l : List Op) : St :=
  l.foldl (fun t op => (applyOp t op).1) s

/-- Every stored user row has non-negative balances in both currencies. -/
def UsersNonneg (us : ℤ → Option UserRow) : Prop :=
  ∀ i u, us i = some u → 0 ≤ u.ton_balance ∧ 0 ≤ u.usdt_balance

/-- Every stored safe session has a non-negative bet. -/
def SessionsNonneg (ss : String → Option SafeSession) : Prop :=
  ∀ i t, ss i = some t → 0 ≤ t.bet

/-- The balance invariant, strengthened with the session-bet bound needed for
the win credit of /safe/guess. -/
def Inv (s : St) : Prop :=
  UsersNonneg s.db.users ∧ SessionsNonneg s.db.sessions

lemma strLower_ton : strLower "ton" = "ton" := by decide

lemma strLower_usdt : strLower "usdt" = "usdt" := by decide

/-- Both balances non-negative, as a predicate on a row. -/
def RowNonneg (u : UserRow) : Prop :=
  0 ≤ u.ton_balance ∧ 0 ≤ u.usdt_balance

lemma getBal_nonneg {u : UserRow} {cur : String} (h : RowNonneg u) :
    0 ≤ getBal u cur := by
  unfold getBal; split
  · exact h.1
  · exact h.2

lemma setBal_nonneg {u : UserRow} {cur : String} {v : ℚ} (hu : RowNonneg u)
    (hv : 0 ≤ v) : RowNonneg (setBal u cur v) := by
  unfold RowNonneg setBal at *
  split
  · exact ⟨hv, hu.2⟩
  · exact ⟨hu.1, hv⟩

lemma usersNonneg_insert {us : ℤ → Option UserRow} {uid : ℤ} {u : UserRow}
    (h : UsersNonneg us) (hu : RowNonneg u) :
    UsersNonneg (fun i => if i = uid then some u else us i) := by
  intro i w hw
  by_cases hi : i = uid
  · simp [hi] at hw; exact hw ▸ hu
  · simp [hi] at hw; exact h i w hw

lemma updUsers_nonneg {us : ℤ → Option UserRow} {uid : ℤ} {f : UserRow → UserRow}
    (h : UsersNonneg us)
    (hf : ∀ u, us uid = some u → RowNonneg u → RowNonneg (f u)) :
    UsersNonneg (updUsers f uid us) := by
  intro i w hw
  unfold updUsers at hw
  by_cases hi : i = uid
  · subst hi
    simp at hw
    cases h1 : us i with
    | none => rw [h1] at hw; simp at hw
    | some v =>
      rw [h1] at hw; simp at hw
      exact hw ▸ hf v h1 (h i v h1)
  · simp [hi] at hw; exact h i w hw

lemma updSession_nonneg {ss : String → Option SafeSession} {sid : String}
    {f : SafeSession → SafeSession} (h : SessionsNonneg ss)
    (hf : ∀ t, (f t).bet = t.bet) : SessionsNonneg (updSession f sid ss) := by
  intro i t ht
  unfold updSession at ht
  by_cases hi : i = sid
  · subst hi
    simp at ht
    cases h1 : ss i with
    | none => rw [h1] at ht; simp at ht
    | some v =>
      rw [h1] at ht; simp at ht
      have := h i v h1
      rw [← ht, hf v]
      exact this
  · simp [hi] at ht; exact h i t ht

lemma sessionsNonneg_insert {ss : String → Option SafeSession} {sid : String}
    {t : SafeSession} (h : SessionsNonneg ss) (ht : 0 ≤ t.bet) :
    SessionsNonneg (fun i => if i = sid then some t else ss i) := by
  intro i w hw
  by_cases hi : i = sid
  · simp [hi] at hw; exact hw ▸ ht
  · simp [hi] at hw; exact h i w hw

lemma pyRound0_nonneg {q : ℚ} (h : 0 ≤ q) : 0 ≤ pyRound0 q := by
  unfold pyRound0
  have hf : (0:ℤ) ≤ ⌊q⌋ := Int.floor_nonneg.2 h
  split_ifs <;> omega

lemma round2_nonneg {q : ℚ} (h : 0 ≤ q) : 0 ≤ round2 q := by
  unfold round2
  apply div_nonneg _ (by norm_num)
  exact_mod_cast pyRound0_nonneg (by positivity)

lemma init_user_inv {s : St} {uid : ℤ} {un : String} (h : Inv s) :
    Inv (init_user s uid un).1 := by
  obtain ⟨hU, hS⟩ := h
  simp only [init_user]
  cases h1 : s.db.users uid <;> simp only [h1] <;>
    first
      | exact ⟨hU, hS⟩
      | exact ⟨usersNonneg_insert hU ⟨le_refl 0, le_refl 0⟩, hS⟩

lemma update_balance_inv {s : St} {uid : ℤ} {cur : String} {amount : ℚ}
    (h : Inv s) (ha : 0 ≤ amount) : Inv (update_balance s uid cur amount).1 := by
  obtain ⟨hU, hS⟩ := h
  have hU' : UsersNonneg (updUsers (fun u => setBal u cur (getBal u cur + amount)) uid s.db.users) :=
    updUsers_nonneg hU (fun u _ hru => setBal_nonneg hru (add_nonneg (getBal_nonneg hru) ha))
  simp only [update_balance]
  split
  next h1 => split <;> exact ⟨hU', hS⟩
  next h1 => exact ⟨hU, hS⟩

lemma add_prize_inv {s : St} {uid : ℤ} {cur : String} {amount : ℚ}
    (h : Inv s) (ha : 0 ≤ amount) : Inv (add_prize s uid cur amount).1 := by
  obtain ⟨hU, hS⟩ := h
  have hU' : UsersNonneg (updUsers (fun u => setBal u cur (getBal u cur + amount)) uid s.db.users) :=
    updUsers_nonneg hU (fun u _ hru => setBal_nonneg hru (add_nonneg (getBal_nonneg hru) ha))
  simp only [add_prize]
  split
  next h1 => split <;> exact ⟨hU', hS⟩
  next h1 => exact ⟨hU, hS⟩

lemma finishGame_inv {s : St} {db1 : DB} {uid : ℤ} {gid gname : String} {bet : ℚ}
    {result : String} {win : Bool} (hU : UsersNonneg db1.users)
    (hS : SessionsNonneg db1.sessions) :
    Inv (finishGame s db1 uid gid gname bet result win).1 := by
  simp only [finishGame]
  split
  next h1 => exact ⟨hU, hS⟩
  next h1 => split <;> exact ⟨hU, hS⟩

lemma record_game_inv {s : St} {uid : ℤ} {gname : String} {bet : ℚ}
    {result : String} {win : Bool} {cur0 : String} {prize : ℚ} {final : Bool}
    {gid : String} (h : Inv s) :
    Inv (record_game s uid gname bet result win cur0 prize final gid).1 := by
  obtain ⟨hU, hS⟩ := h
  simp only [record_game]
  split
  next h1 =>
    split
    next h2 =>
      cases h3 : s.db.users uid with
      | none => simp only [h3]; exact ⟨hU, hS⟩
      | some u =>
        simp only [h3]
        split
        next h4 =>
          refine finishGame_inv ?_ hS
          refine updUsers_nonneg hU (fun v hv hrv => ?_)
          rw [h3] at hv
          have hvu : v = u := (Option.some.inj hv).symm
          subst hvu
          exact setBal_nonneg hrv (by linarith)
        next h4 => exact ⟨hU, hS⟩
    next h2 =>
      split
      next h4 =>
        refine finishGame_inv ?_ hS
        exact updUsers_nonneg hU (fun v _ hrv =>
          setBal_nonneg hrv (add_nonneg (getBal_nonneg hrv) h4.2.le))
      next h4 => exact finishGame_inv hU hS
  next h1 => exact ⟨hU, hS⟩

lemma coin_start_inv {s : St} {uid : ℤ} {cur0 : String} {bet : ℚ}
    {choice : String} {r : ℚ} {gid : String} (h : Inv s) (hbet : 0 ≤ bet) :
    Inv (coin_start s uid cur0 bet choice r gid).1 := by
  obtain ⟨hU, hS⟩ := h
  have hU1 : UsersNonneg (updUsers
      (fun v => setBal v (strLower cur0) (getBal v (strLower cur0) + round2 (bet * 2)))
      uid (updUsers
        (fun v => setBal v (strLower cur0) (getBal v (strLower cur0) - bet))
        uid s.db.users)) →
      True := fun _ => trivial
  simp only [coin_start]
  split
  next h1 =>
    split
    next h2 =>
      cases h3 : s.db.users uid with
      | none => simp only [h3]; exact ⟨hU, hS⟩
      | some u =>
        simp only [h3]
        split
        next h4 => exact ⟨hU, hS⟩
        next h4 =>
          have hD : UsersNonneg (updUsers
              (fun v => setBal v (strLower cur0) (getBal v (strLower cur0) - bet))
              uid s.db.users) := by
            refine updUsers_nonneg hU (fun v hv hrv => ?_)
            rw [h3] at hv
            have hvu : v = u := (Option.some.inj hv).symm
            subst hvu
            exact setBal_nonneg hrv (by push_neg at h4; linarith)
          have hC : UsersNonneg (updUsers
              (fun v => setBal v (strLower cur0) (getBal v (strLower cur0) + round2 (bet * 2)))
              uid (updUsers
                (fun v => setBal v (strLower cur0) (getBal v (strLower cur0) - bet))
                uid s.db.users)) :=
            updUsers_nonneg hD (fun v _ hrv =>
              setBal_nonneg hrv (add_nonneg (getBal_nonneg hrv) (round2_nonneg (by positivity))))
          split
          next h5 =>
            split
            next h6 => exact ⟨hC, hS⟩
            next h6 => split <;> exact ⟨hC, hS⟩
          next h5 =>
            split
            next h6 => exact ⟨hD, hS⟩
            next h6 => split <;> exact ⟨hD, hS⟩
    next h2 => exact ⟨hU, hS⟩
  next h1 => exact ⟨hU, hS⟩

lemma boxes_start_inv {s : St} {uid : ℤ} {cur0 : String} {bet : ℚ} {choice : ℤ}
    (h : Inv s) : Inv (boxes_start s uid cur0 bet choice).1 := by
  obtain ⟨hU, hS⟩ := h
  simp only [boxes_start]
  split
  next h1 =>
    cases h3 : s.db.users uid with
    | none => simp only [h3]; exact ⟨hU, hS⟩
    | some u =>
      simp only [h3]
      split
      next h4 => exact ⟨hU, hS⟩
      next h4 =>
        refine ⟨updUsers_nonneg hU (fun v hv hrv => ?_), hS⟩
        rw [h3] at hv
        have hvu : v = u := (Option.some.inj hv).symm
        subst hvu
        exact setBal_nonneg hrv (by push_neg at h4; linarith)
  next h1 => exact ⟨hU, hS⟩

lemma start_safe_game_inv {s : St} {uid : ℤ} {cur0 : String} {bet : ℚ}
    {d1 d2 d3 : ℕ} {sid : String} (h : Inv s) (hbet : 0 ≤ bet) :
    Inv (start_safe_game s uid cur0 bet d1 d2 d3 sid).1 := by
  obtain ⟨hU, hS⟩ := h
  simp only [start_safe_game]
  split
  next h1 =>
    cases h3 : s.db.users uid with
    | none => simp only [h3]; exact ⟨hU, hS⟩
    | some u =>
      simp only [h3]
      split
      next h4 => exact ⟨hU, hS⟩
      next h4 =>
        split
        next h5 => exact ⟨hU, hS⟩
        next h5 =>
          split
          next h6 => exact ⟨hU, sessionsNonneg_insert hS hbet⟩
          next h6 => exact ⟨hU, sessionsNonneg_insert hS hbet⟩
  next h1 => exact ⟨hU, hS⟩

lemma safe_guess_inv {s : St} {sid : String} {uid : ℤ} {guess : List ℤ}
    (h : Inv s) : Inv (safe_guess s sid uid guess).1 := by
  obtain ⟨hU, hS⟩ := h
  simp only [safe_guess]
  cases h1 : s.db.sessions sid with
  | none => simp only [h1]; exact ⟨hU, hS⟩
  | some ses =>
    simp only [h1]
    have hbet : 0 ≤ ses.bet := hS sid ses h1
    split
    next h2 => exact ⟨hU, hS⟩
    next h2 =>
      split
      next h3 => exact ⟨hU, hS⟩
      next h3 =>
        split
        next h4 => exact ⟨hU, hS⟩
        next h4 =>
          split
          next h5 => exact ⟨hU, hS⟩
          next h5 =>
            split
            next h6 =>
              have hU1 : UsersNonneg (updUsers (fun v => setBal v ses.currency
                  (getBal v ses.currency + ses.bet * 10)) uid s.db.users) :=
                updUsers_nonneg hU (fun v _ hrv =>
                  setBal_nonneg hrv (add_nonneg (getBal_nonneg hrv) (by positivity)))
              have hS1 : SessionsNonneg (updSession
                  (fun t => { t with attempts := ses.attempts + 1, is_finished := true })
                  sid s.db.sessions) :=
                updSession_nonneg hS (fun t => rfl)
              split <;> exact ⟨hU1, hS1⟩
            next h6 =>
              split
              next h7 => exact ⟨hU, updSession_nonneg hS (fun t => rfl)⟩
              next h7 => exact ⟨hU, updSession_nonneg hS (fun t => rfl)⟩

lemma safe_hint_inv {s : St} {sid : String} {uid : ℤ} (h : Inv s) :
    Inv (safe_hint s sid uid).1 := by
  obtain ⟨hU, hS⟩ := h
  simp only [safe_hint]
  cases h1 : s.db.sessions sid with
  | none => simp only [h1]; exact ⟨hU, hS⟩
  | some ses =>
    simp only [h1]
    split
    next h2 => exact ⟨hU, hS⟩
    next h2 =>
      split
      next h3 => exact ⟨hU, hS⟩
      next h3 =>
        split
        next h4 => exact ⟨hU, hS⟩
        next h4 =>
          cases h5 : s.db.users uid with
          | none => simp only [h5]; exact ⟨hU, hS⟩
          | some u =>
            simp only [h5]
            split
            next h6 => exact ⟨hU, hS⟩
            next h6 =>
              have hU1 : UsersNonneg (updUsers (fun v => setBal v ses.currency
                  (getBal v ses.currency - 1)) uid s.db.users) := by
                refine updUsers_nonneg hU (fun v hv hrv => ?_)
                rw [h5] at hv
                have hvu : v = u := (Option.some.inj hv).symm
                subst hvu
                exact setBal_nonneg hrv (by push_neg at h6; linarith)
              have hS1 : SessionsNonneg (updSession (fun t => { t with used_hint := true })
                  sid s.db.sessions) := updSession_nonneg hS (fun t => rfl)
              split <;> exact ⟨hU1, hS1⟩

lemma applyOp_inv {s : St} {op : Op} (h : Inv s) (hop : op.nonneg) :
    Inv (applyOp s op).1 := by
  cases op with
  | opInit uid un => exact init_user_inv h
  | balanceAdd uid cur a => exact update_balance_inv h hop
  | balancePrize uid cur a => exact add_prize_inv h hop
  | game uid g bet res w cur pr fin gid => exact record_game_inv h
  | coin uid cur bet ch r gid => exact coin_start_inv h hop
  | boxes uid cur bet ch => exact @boxes_start_inv s uid cur bet ch h
  | safeStart uid cur bet d1 d2 d3 sid => exact start_safe_game_inv h hop
  | safeGuess sid uid g => exact safe_guess_inv h
  | safeHint sid uid => exact safe_hint_inv h
  | subscribe uid a b => exact h
  | getBalanceOp uid =>
    obtain ⟨hU, hS⟩ := h
    simp only [applyOp, get_balance]
    split <;> exact ⟨hU, hS⟩
  | forceBalanceOp uid =>
    obtain ⟨hU, hS⟩ := h
    simp only [applyOp, force_balance]
    split <;> exact ⟨hU, hS⟩
  | getGamesOp uid => exact h

lemma runOps_inv {s : St} {l : List Op} (h : Inv s) (hl : ∀ op ∈ l, op.nonneg) :
    Inv (runOps s l) := by
  induction l generalizing s with
  | nil => exact h
  | cons op l ih =>
    exact ih (applyOp_inv h (hl op (List.mem_cons_self op l)))
      (fun x hx => hl x (List.mem_cons_of_mem op hx))


lemma getBal_setBal (u : UserRow) (c : String) (v : ℚ) : getBal (setBal u c v) c = v := by
  unfold getBal setBal; split <;> rfl

lemma setBal_setBal (u : UserRow) (c : String) (v w : ℚ) :
    setBal (setBal u c v) c w = setBal u c w := by
  unfold setBal; split <;> rfl

/-- A state with a single user, id 7, holding 20 TON and no games or sessions. -/
def stBob20 : St :=
  ⟨⟨fun i => if i = 7 then some ⟨"bob", 20, 0⟩ else none, [], fun _ => none⟩, fun _ => none⟩

/-- A state with a single user, id 42, holding 10 TON. -/
def stCarol10 : St :=
  ⟨⟨fun i => if i = 42 then some ⟨"carol", 10, 0⟩ else none, [], fun _ => none⟩, fun _ => none⟩

/-- C1 (counterexample): from a freshly initialised account, POST /balance/add
accepts the amount -1 and commits it, leaving the stored ton balance at -1,
which violates the claimed non-negativity invariant. -/
theorem C1_counterexample_negative_add :
    (runOps St0 [Op.opInit 1 "u", Op.balanceAdd 1 "ton" (-1)]).db.users 1 =
      some ⟨"u", -1, 0⟩ ∧ ¬(0 ≤ (-1 : ℚ)) := by
  norm_num [runOps, applyOp, St0, init_user, update_balance, getBal, setBal, updUsers, putCache]

/-- C1 (amended): if every client-supplied amount and bet is non-negative, then
after any sequence of operations starting from the empty initial state every
stored user balance is ≥ 0 in both currencies. -/
theorem C1_amended_balances_nonneg (l : List Op) (hl : ∀ op ∈ l, op.nonneg) :
    ∀ uid u, (runOps St0 l).db.users uid = some u →
      0 ≤ u.ton_balance ∧ 0 ≤ u.usdt_balance := by
  have h0 : Inv St0 := ⟨fun i u h => by simp [St0] at h, fun i t h => by simp [St0] at h⟩
  exact (runOps_inv h0 hl).1

/-- C1 (witness): the amended theorem applied to a concrete run — init, add 5,
then a winning 2-ton coin flip leave user 1 with balances (7, 0), both ≥ 0. -/
theorem C1_amended_balances_nonneg_witness :
    0 ≤ (UserRow.mk "a" 7 0).ton_balance ∧ 0 ≤ (UserRow.mk "a" 7 0).usdt_balance :=
  C1_amended_balances_nonneg [Op.opInit 1 "a", Op.balanceAdd 1 "ton" 5,
      Op.coin 1 "ton" 2 "heads" 0 "g1"] (by norm_num [Op.nonneg]) 1 ⟨"a", 7, 0⟩
    (by norm_num [runOps, applyOp, St0, init_user, update_balance, coin_start,
      getBal, setBal, updUsers, putCache, round2, pyRound0, strLower_ton])

/-- C2 (code_bug): /boxes/start always fails after the stake debit — line 6 of
main.py binds `random` to the function `random.random`, so line 553 evaluates an
attribute access on a function and raises AttributeError — and, with each
`database.execute` autocommitted and no transaction, the debit stays visible
(balance 20 → 15) while no game record exists, contradicting the claimed
atomicity. -/
theorem C2_boxes_partial_mutation :
    (boxes_start stBob20 7 "ton" 5 2).2 = .crash ∧
    (boxes_start stBob20 7 "ton" 5 2).1.db.users 7 = some ⟨"bob", 15, 0⟩ ∧
    (boxes_start stBob20 7 "ton" 5 2).1.db.games = [] := by
  norm_num [boxes_start, stBob20, getBal, setBal, updUsers, strLower_ton]

/-- C5 (code_bug): in the spec scenario (balance {ton:10}, bet 5 on box 2),
/boxes/start crashes with AttributeError right after debiting the stake: the
claimed response {win:true, prize:10, chosenBox:2, winningBox:2} is never
produced and the final balance is 5, not 15. -/
theorem C5_boxes_scenario_crashes :
    (boxes_start stCarol10 42 "ton" 5 2).2 = .crash ∧
    (boxes_start stCarol10 42 "ton" 5 2).2 ≠ .ok (.boxes true 10 2 2) ∧
    (boxes_start stCarol10 42 "ton" 5 2).1.db.users 42 = some ⟨"carol", 5, 0⟩ := by
  norm_num [boxes_start, stCarol10, getBal, setBal, updUsers, strLower_ton]
  decide

/-- C3: in the generic /game path with final=false, the stake debit succeeds
iff the current balance in the named currency is at least the bet: on success
the balance is decreased by the bet and the game row is appended; on
insufficient balance the request is rejected with 400 and the whole state is
returned unchanged (no debit, no game record). -/
theorem C3_game_conditional_debit (s : St) (uid : ℤ) (gname : String) (bet : ℚ)
    (result : String) (win : Bool) (cur : String) (prize : ℚ) (gid : String)
    (u : UserRow) (hu : s.db.users uid = some u)
    (hcur : strLower cur = "ton" ∨ strLower cur = "usdt")
    (hg : s.db.games.any (fun r => r.id == gid) = false) :
    (bet ≤ getBal u (strLower cur) →
      (record_game s uid gname bet result win cur prize false gid).1.db.users uid =
        some (setBal u (strLower cur) (getBal u (strLower cur) - bet)) ∧
      (record_game s uid gname bet result win cur prize false gid).1.db.games =
        s.db.games ++ [⟨gid, uid, gname, bet, result, win⟩]) ∧
    (getBal u (strLower cur) < bet →
      record_game s uid gname bet result win cur prize false gid = (s, .err 400)) := by
  constructor
  · intro hle
    simp only [record_game, finishGame]
    rw [if_pos hcur]
    simp only [hu, hg]
    rw [if_pos hle]
    simp [updUsers, hu]
  · intro hlt
    simp only [record_game]
    rw [if_pos hcur]
    simp only [hu]
    rw [if_neg (not_le.2 hlt)]
    exact if_pos trivial

/-- C3 (witness): the conditional debit applied to a user with balance 20 and
bet 5. -/
theorem C3_game_conditional_debit_witness :
    (record_game stBob20 7 "Coin" 5 "pending" false "ton" 0 false "gw3").1.db.users 7 =
      some (setBal ⟨"bob", 20, 0⟩ (strLower "ton") (getBal ⟨"bob", 20, 0⟩ (strLower "ton") - 5)) :=
  ((C3_game_conditional_debit stBob20 7 "Coin" 5 "pending" false "ton" 0 "gw3"
      ⟨"bob", 20, 0⟩ (by norm_num [stBob20]) (Or.inl strLower_ton) rfl).1
    (by norm_num [getBal, strLower_ton])).1


/-- C4 (counterexample): a successful /safe/start (balance 10, bet 4) leaves
the balance at 10 — the debit of the bet claimed by the spec does not happen
(main.py line 269 removed it). -/
theorem C4_counterexample_no_debit :
    (start_safe_game stCarol10 42 "ton" 4 3 1 4 "s1").2 = .ok (.safeStarted "s1") ∧
    (start_safe_game stCarol10 42 "ton" 4 3 1 4 "s1").1.db.users 42 =
      some ⟨"carol", 10, 0⟩ ∧ (10 : ℚ) ≠ 10 - 4 := by
  norm_num [start_safe_game, stCarol10, getBal, setBal, updUsers, putCache, strLower_ton]

/-- C4 (amended): for a user with valid currency and balance ≥ bet, /safe/start
leaves the balance unchanged (the debit was removed from the code), creates a
session with attempts=0, used_hint=false, is_finished=false and a 3-digit code
with every digit in 0..9, appends a pending Game Log row sharing the session
id, and returns the session id. -/
theorem C4_amended_safe_start (s : St) (uid : ℤ) (cur : String) (bet : ℚ)
    (d1 d2 d3 : ℕ) (sid : String) (u : UserRow)
    (hu : s.db.users uid = some u)
    (hcur : strLower cur = "ton" ∨ strLower cur = "usdt")
    (hbal : bet ≤ getBal u (strLower cur))
    (hsid : s.db.sessions sid = none)
    (hgid : s.db.games.any (fun g => g.id == sid) = false) :
    (start_safe_game s uid cur bet d1 d2 d3 sid).2 = .ok (.safeStarted sid) ∧
    (start_safe_game s uid cur bet d1 d2 d3 sid).1.db.sessions sid =
      some ⟨uid, strLower cur, bet,
        [((d1 % 10 : ℕ) : ℤ), ((d2 % 10 : ℕ) : ℤ), ((d3 % 10 : ℕ) : ℤ)],
        0, false, false⟩ ∧
    (∀ d ∈ [((d1 % 10 : ℕ) : ℤ), ((d2 % 10 : ℕ) : ℤ), ((d3 % 10 : ℕ) : ℤ)],
      0 ≤ d ∧ d ≤ 9) ∧
    (start_safe_game s uid cur bet d1 d2 d3 sid).1.db.games =
      s.db.games ++ [⟨sid, uid, "Safe Cracker", bet, "pending", false⟩] ∧
    (start_safe_game s uid cur bet d1 d2 d3 sid).1.db.users = s.db.users := by
  have hrange : ∀ d ∈ [((d1 % 10 : ℕ) : ℤ), ((d2 % 10 : ℕ) : ℤ), ((d3 % 10 : ℕ) : ℤ)],
      0 ≤ d ∧ d ≤ 9 := by
    have m1 := Nat.mod_lt d1 (show 0 < 10 by norm_num)
    have m2 := Nat.mod_lt d2 (show 0 < 10 by norm_num)
    have m3 := Nat.mod_lt d3 (show 0 < 10 by norm_num)
    intro d hd
    simp only [List.mem_cons, List.not_mem_nil, or_false] at hd
    rcases hd with h | h | h <;> subst h <;> constructor <;> omega
  simp only [start_safe_game]
  rw [if_pos hcur]
  simp only [hu]
  rw [if_neg (not_lt.2 hbal)]
  simp only [hsid, hgid, Option.isSome_none, Bool.false_eq_true, if_false]
  refine ⟨by simp, by simp, hrange, by simp, by simp⟩

/-- C4 (witness): the amended /safe/start behaviour at a concrete input. -/
theorem C4_amended_safe_start_witness :
    (start_safe_game stBob20 7 "ton" 4 13 1 24 "sw4").1.db.sessions "sw4" =
      some ⟨7, strLower "ton", 4,
        [((13 % 10 : ℕ) : ℤ), ((1 % 10 : ℕ) : ℤ), ((24 % 10 : ℕ) : ℤ)],
        0, false, false⟩ :=
  (C4_amended_safe_start stBob20 7 "ton" 4 13 1 24 "sw4" ⟨"bob", 20, 0⟩
    (by norm_num [stBob20]) (Or.inl strLower_ton)
    (by norm_num [getBal, strLower_ton]) rfl rfl).2.1


lemma updSession_cap {ss : String → Option SafeSession} {sid : String}
    {f : SafeSession → SafeSession} (h : ∀ i t, ss i = some t → t.attempts ≤ 3)
    (hf : ∀ t, ss sid = some t → t.attempts ≤ 3 → (f t).attempts ≤ 3) :
    ∀ i t, updSession f sid ss i = some t → t.attempts ≤ 3 := by
  intro i t ht
  unfold updSession at ht
  by_cases hi : i = sid
  · subst hi
    simp at ht
    cases h1 : ss i with
    | none => rw [h1] at ht; simp at ht
    | some v =>
      rw [h1] at ht; simp at ht
      exact ht ▸ hf v h1 (h i v h1)
  · simp [hi] at ht; exact h i t ht

/-- A state with user 1 (balance 10 TON), a pending game row "s6" and an
active safe session "s6" with code [1,2,3], bet 2, attempts 0. -/
def stSes : St :=
  ⟨⟨fun i => if i = 1 then some ⟨"alice", 10, 0⟩ else none,
    [⟨"s6", 1, "Safe Cracker", 2, "pending", false⟩],
    fun i => if i = "s6" then some ⟨1, "ton", 2, [1, 2, 3], 0, false, false⟩ else none⟩,
   fun _ => none⟩

/-- C6 (counterexample): the guess [10,0,0] is not "3 integer digits each in
0-9" (10 > 9), yet /safe/guess accepts it — it responds try_again and consumes
an attempt — because the code only checks `len == 3` and that the entries are
ints, never the 0..9 range. -/
theorem C6_counterexample_out_of_range_digit_accepted :
    (safe_guess stSes "s6" 1 [10, 0, 0]).2 = .ok (.tryAgain 2) ∧
    ((safe_guess stSes "s6" 1 [10, 0, 0]).1.db.sessions "s6").map SafeSession.attempts =
      some 1 ∧ ¬((10 : ℤ) ≤ 9) := by
  norm_num [safe_guess, stSes, updSession]


/-- Rejection behaviour of /safe/guess: any of the five failure conditions
yields a 4xx error with the state unchanged. -/
lemma safe_guess_reject (s : St) (sid : String) (uid : ℤ) (guess : List ℤ)
    (hr : s.db.sessions sid = none ∨
      (∃ t, s.db.sessions sid = some t ∧
        (t.is_finished = true ∨ t.user_id ≠ uid ∨ 3 ≤ t.attempts)) ∨
      guess.length ≠ 3) :
    (∃ c, (safe_guess s sid uid guess).2 = .err c ∧ 400 ≤ c ∧ c ≤ 404) ∧
    (safe_guess s sid uid guess).1 = s := by
  simp only [safe_guess]
  split
  next x h1 => exact ⟨⟨404, rfl, by norm_num, by norm_num⟩, rfl⟩
  next x ses h1 =>
    split
    next h2 => exact ⟨⟨400, rfl, by norm_num, by norm_num⟩, rfl⟩
    next h2 =>
      split
      next h3 => exact ⟨⟨403, rfl, by norm_num, by norm_num⟩, rfl⟩
      next h3 =>
        split
        next h4 => exact ⟨⟨400, rfl, by norm_num, by norm_num⟩, rfl⟩
        next h4 =>
          split
          next h5 => exact ⟨⟨400, rfl, by norm_num, by norm_num⟩, rfl⟩
          next h5 =>
            exfalso
            rcases hr with h | ⟨t, ht, hc⟩ | h
            · rw [h1] at h; exact Option.noConfusion h
            · rw [h1] at ht
              have heq2 : t = ses := (Option.some.inj ht).symm
              subst heq2
              rcases hc with hc | hc | hc
              · exact h2 hc
              · exact h3 hc
              · exact h5 hc
            · exact h4 h

/-- The attempts counter of every stored session stays ≤ 3 across any
/safe/guess call. -/
lemma safe_guess_cap (s : St) (sid : String) (uid : ℤ) (guess : List ℤ)
    (hcap : ∀ i t, s.db.sessions i = some t → t.attempts ≤ 3) :
    ∀ i t, (safe_guess s sid uid guess).1.db.sessions i = some t →
      t.attempts ≤ 3 := by
  simp only [safe_guess]
  split
  next x h1 => exact fun i t ht => hcap i t ht
  next x ses h1 =>
    split
    next h2 => exact fun i t ht => hcap i t ht
    next h2 =>
      split
      next h3 => exact fun i t ht => hcap i t ht
      next h3 =>
        split
        next h4 => exact fun i t ht => hcap i t ht
        next h4 =>
          split
          next h5 => exact fun i t ht => hcap i t ht
          next h5 =>
            have hlt3 : ses.attempts < 3 := Nat.lt_of_not_le h5
            split
            next h6 =>
              split <;>
                exact fun i t ht => updSession_cap hcap
                  (fun t _ _ => by simp; omega) i t ht
            next h6 =>
              split
              next h7 =>
                exact fun i t ht => updSession_cap hcap
                  (fun t _ _ => by simp; omega) i t ht
              next h7 =>
                exact fun i t ht => updSession_cap hcap
                  (fun t _ _ => by simp; omega) i t ht

/-- C6 (amended): /safe/guess rejects with a client error (status in 400..404)
and leaves the whole state unchanged whenever the session does not exist, is
already finished, is not owned by the caller, has attempts already at 3, or the
guess is not a list of exactly 3 integers (the 0..9 digit range is NOT
validated); moreover the attempts counter of every session stays ≤ 3 across
the call, so a session never records more than 3 guesses. -/
theorem C6_amended_guess_rejections (s : St) (sid : String) (uid : ℤ)
    (guess : List ℤ)
    (hcap : ∀ i t, s.db.sessions i = some t → t.attempts ≤ 3) :
    ((s.db.sessions sid = none ∨
      (∃ t, s.db.sessions sid = some t ∧
        (t.is_finished = true ∨ t.user_id ≠ uid ∨ 3 ≤ t.attempts)) ∨
      guess.length ≠ 3) →
      (∃ c, (safe_guess s sid uid guess).2 = .err c ∧ 400 ≤ c ∧ c ≤ 404) ∧
      (safe_guess s sid uid guess).1 = s) ∧
    (∀ i t, (safe_guess s sid uid guess).1.db.sessions i = some t →
      t.attempts ≤ 3) :=
  ⟨fun hr => safe_guess_reject s sid uid guess hr,
   safe_guess_cap s sid uid guess hcap⟩

/-- C6 (witness): a guess on a missing session is rejected with 404 and the
state is unchanged. -/
theorem C6_amended_guess_rejections_witness :
    (∃ c, (safe_guess stSes "missing" 1 [1, 2, 3]).2 = .err c ∧ 400 ≤ c ∧ c ≤ 404) ∧
    (safe_guess stSes "missing" 1 [1, 2, 3]).1 = stSes :=
  (C6_amended_guess_rejections stSes "missing" 1 [1, 2, 3]
    (by
      intro i t ht
      simp only [stSes] at ht
      by_cases hi : i = "s6"
      · rw [if_pos hi] at ht
        cases ht
        decide
      · rw [if_neg hi] at ht
        cases ht)).1
    (Or.inl (by decide))


/-- C7: for every accepted /safe/guess on an active session (session found,
owned, unfinished, 3-integer guess, attempts < 3): an exact element-wise match
credits 10 × bet to the session-currency balance, marks the Game Log row win,
marks the session finished and returns {result:"win", prize, code} on any of
the three attempts; a wrong guess on the 3rd attempt marks the log row lose,
finishes the session and reveals the code; a wrong earlier guess only
increments the attempts counter by exactly 1 and returns
{result:"try_again", attempts_left = 3 - attempts} (with attempts the updated
counter). -/
theorem C7_guess_resolution (s : St) (sid : String) (uid : ℤ) (guess : List ℤ)
    (ses : SafeSession) (u : UserRow)
    (hses : s.db.sessions sid = some ses)
    (hfin : ses.is_finished = false)
    (how : ses.user_id = uid)
    (hlen : guess.length = 3)
    (hatt : ses.attempts < 3)
    (hu : s.db.users uid = some u) :
    (guess = ses.code →
      (safe_guess s sid uid guess).2 = .ok (.guessWin (ses.bet * 10) ses.code) ∧
      (safe_guess s sid uid guess).1.db.users uid =
        some (setBal u ses.currency (getBal u ses.currency + ses.bet * 10)) ∧
      (safe_guess s sid uid guess).1.db.games =
        s.db.games.map (fun (g : GameRow) => if g.id = sid then
          { g with result := "win", win := true } else g) ∧
      (safe_guess s sid uid guess).1.db.sessions sid =
        some { ses with attempts := ses.attempts + 1, is_finished := true }) ∧
    (guess ≠ ses.code → 3 ≤ ses.attempts + 1 →
      (safe_guess s sid uid guess).2 = .ok (.guessLose ses.code) ∧
      (safe_guess s sid uid guess).1.db.users = s.db.users ∧
      (safe_guess s sid uid guess).1.db.games =
        s.db.games.map (fun (g : GameRow) => if g.id = sid then
          { g with result := "lose", win := false } else g) ∧
      (safe_guess s sid uid guess).1.db.sessions sid =
        some { ses with attempts := ses.attempts + 1, is_finished := true }) ∧
    (guess ≠ ses.code → ses.attempts + 1 < 3 →
      (safe_guess s sid uid guess).2 = .ok (.tryAgain (3 - (ses.attempts + 1))) ∧
      (safe_guess s sid uid guess).1.db.sessions sid =
        some { ses with attempts := ses.attempts + 1 } ∧
      (safe_guess s sid uid guess).1.db.users = s.db.users ∧
      (safe_guess s sid uid guess).1.db.games = s.db.games) := by
  have h5 : ¬3 ≤ ses.attempts := Nat.not_le.2 hatt
  simp only [safe_guess, hses]
  rw [if_neg (by rw [hfin]; exact Bool.false_ne_true)]
  rw [if_neg (by rw [how]; exact fun h => h rfl)]
  rw [if_neg (by rw [hlen]; exact fun h => h rfl)]
  rw [if_neg h5]
  refine ⟨?_, ?_, ?_⟩
  · intro hg
    rw [if_pos hg]
    simp [updUsers, updSession, hu, hses]
  · intro hg h3
    rw [if_neg hg, if_pos h3]
    simp [updSession, hses]
  · intro hg h3
    rw [if_neg hg, if_neg (Nat.not_le.2 h3)]
    simp [updSession, hses]

/-- C7 (witness): a correct first-attempt guess on the concrete session stSes
wins, credits 20 = 2 × 10, and finishes the session. -/
theorem C7_guess_resolution_witness :
    (safe_guess stSes "s6" 1 [1, 2, 3]).2 = .ok (.guessWin (2 * 10) [1, 2, 3]) ∧
    (safe_guess stSes "s6" 1 [1, 2, 3]).1.db.users 1 =
      some (setBal ⟨"alice", 10, 0⟩ "ton" (getBal ⟨"alice", 10, 0⟩ "ton" + 2 * 10)) ∧
    (safe_guess stSes "s6" 1 [1, 2, 3]).1.db.games =
      stSes.db.games.map (fun (g : GameRow) => if g.id = "s6" then
        { g with result := "win", win := true } else g) ∧
    (safe_guess stSes "s6" 1 [1, 2, 3]).1.db.sessions "s6" =
      some ⟨1, "ton", 2, [1, 2, 3], 1, false, true⟩ :=
  (C7_guess_resolution stSes "s6" 1 [1, 2, 3]
      ⟨1, "ton", 2, [1, 2, 3], 0, false, false⟩ ⟨"alice", 10, 0⟩
      (by decide) rfl rfl rfl (by decide) (by decide)).1 rfl


/-- Rejection behaviour of /safe/hint: any of the five failure conditions
yields a 4xx error with the state unchanged. -/
lemma safe_hint_reject (s : St) (sid : String) (uid : ℤ)
    (hr : s.db.sessions sid = none ∨
      (∃ t, s.db.sessions sid = some t ∧
        (t.is_finished = true ∨ t.used_hint = true ∨ t.user_id ≠ uid ∨
          (∃ w, s.db.users uid = some w ∧ getBal w t.currency < 1)))) :
    (∃ c, (safe_hint s sid uid).2 = .err c ∧ 400 ≤ c ∧ c ≤ 404) ∧
    (safe_hint s sid uid).1 = s := by
  simp only [safe_hint]
  split
  next x h1 => exact ⟨⟨404, rfl, by norm_num, by norm_num⟩, rfl⟩
  next x ses h1 =>
    split
    next h2 => exact ⟨⟨400, rfl, by norm_num, by norm_num⟩, rfl⟩
    next h2 =>
      split
      next h3 => exact ⟨⟨400, rfl, by norm_num, by norm_num⟩, rfl⟩
      next h3 =>
        split
        next h4 => exact ⟨⟨403, rfl, by norm_num, by norm_num⟩, rfl⟩
        next h4 =>
          split
          next x2 h5 => exact ⟨⟨404, rfl, by norm_num, by norm_num⟩, rfl⟩
          next x2 u h5 =>
            split
            next h6 => exact ⟨⟨400, rfl, by norm_num, by norm_num⟩, rfl⟩
            next h6 =>
              exfalso
              rcases hr with h | ⟨t, ht, hc⟩
              · rw [h1] at h; exact Option.noConfusion h
              · rw [h1] at ht
                have heq2 : t = ses := (Option.some.inj ht).symm
                subst heq2
                rcases hc with hc | hc | hc | ⟨w, hw, hwlt⟩
                · exact h2 hc
                · exact h3 hc
                · exact h4 hc
                · rw [h5] at hw
                  have heq3 : w = u := (Option.some.inj hw).symm
                  subst heq3
                  exact h6 hwlt

/-- Success behaviour of /safe/hint: debit exactly 1.0, set used_hint, return
the first code digit with the cost, and a second call on the same session then
fails. -/
lemma safe_hint_success (s : St) (sid : String) (uid : ℤ)
    (ses : SafeSession) (u : UserRow) (a b c : ℤ)
    (hses : s.db.sessions sid = some ses)
    (hfin : ses.is_finished = false)
    (hused : ses.used_hint = false)
    (how : ses.user_id = uid)
    (hu : s.db.users uid = some u)
    (hcode : ses.code = [a, b, c])
    (hbal : 1 ≤ getBal u ses.currency) :
    (safe_hint s sid uid).2 = .ok (.hintResp a 1) ∧
    (safe_hint s sid uid).1.db.users uid =
      some (setBal u ses.currency (getBal u ses.currency - 1)) ∧
    (safe_hint s sid uid).1.db.sessions sid = some { ses with used_hint := true } ∧
    (safe_hint s sid uid).1.db.games = s.db.games ∧
    (∃ c2, (safe_hint (safe_hint s sid uid).1 sid uid).2 = .err c2) := by
  have hupd : updUsers (fun v => setBal v ses.currency (getBal v ses.currency - 1))
      uid s.db.users uid
      = some (setBal u ses.currency (getBal u ses.currency - 1)) := by
    simp [updUsers, hu]
  simp only [safe_hint, hses]
  rw [if_neg (by rw [hfin]; exact Bool.false_ne_true)]
  rw [if_neg (by rw [hused]; exact Bool.false_ne_true)]
  rw [if_neg (by rw [how]; exact fun h => h rfl)]
  simp only [hu]
  rw [if_neg (not_lt.2 hbal)]
  simp only [hupd]
  have hs2 : updSession (fun t => { t with used_hint := true }) sid s.db.sessions sid
      = some { ses with used_hint := true } := by
    simp [updSession, hses]
  refine ⟨by rw [hcode]; rfl, trivial, hs2, trivial, 400, ?_⟩
  simp only [hs2]
  simp [hfin]

/-- C8: /safe/hint fails with a client error and changes no state if the
session is not found, already finished, the hint was already used, the caller
does not own the session, or the balance is below the fixed cost 1.0; on
success it debits exactly 1.0 from the session-currency balance, sets
used_hint, and returns the first code digit with the cost — after which a
second call on the same session always fails. -/
theorem C8_hint_contract (s : St) (sid : String) (uid : ℤ) :
    ((s.db.sessions sid = none ∨
      (∃ t, s.db.sessions sid = some t ∧
        (t.is_finished = true ∨ t.used_hint = true ∨ t.user_id ≠ uid ∨
          (∃ w, s.db.users uid = some w ∧ getBal w t.currency < 1)))) →
      (∃ c, (safe_hint s sid uid).2 = .err c ∧ 400 ≤ c ∧ c ≤ 404) ∧
      (safe_hint s sid uid).1 = s) ∧
    (∀ ses u a b c, s.db.sessions sid = some ses → ses.is_finished = false →
      ses.used_hint = false → ses.user_id = uid → s.db.users uid = some u →
      ses.code = [a, b, c] → 1 ≤ getBal u ses.currency →
      (safe_hint s sid uid).2 = .ok (.hintResp a 1) ∧
      (safe_hint s sid uid).1.db.users uid =
        some (setBal u ses.currency (getBal u ses.currency - 1)) ∧
      (safe_hint s sid uid).1.db.sessions sid = some { ses with used_hint := true } ∧
      (safe_hint s sid uid).1.db.games = s.db.games ∧
      (∃ c2, (safe_hint (safe_hint s sid uid).1 sid uid).2 = .err c2)) :=
  ⟨fun hr => safe_hint_reject s sid uid hr,
   fun ses u a b c hses hfin hused how hu hcode hbal =>
     safe_hint_success s sid uid ses u a b c hses hfin hused how hu hcode hbal⟩

/-- C8 (witness): the hint contract applied to the concrete session stSes. -/
theorem C8_hint_contract_witness :
    (safe_hint stSes "s6" 1).2 = .ok (.hintResp 1 1) ∧
    (safe_hint stSes "s6" 1).1.db.users 1 =
      some (setBal ⟨"alice", 10, 0⟩ "ton" (getBal ⟨"alice", 10, 0⟩ "ton" - 1)) ∧
    (safe_hint stSes "s6" 1).1.db.sessions "s6" =
      some ⟨1, "ton", 2, [1, 2, 3], 0, true, false⟩ ∧
    (safe_hint stSes "s6" 1).1.db.games = stSes.db.games ∧
    (∃ c2, (safe_hint (safe_hint stSes "s6" 1).1 "s6" 1).2 = .err c2) :=
  (C8_hint_contract stSes "s6" 1).2
    ⟨1, "ton", 2, [1, 2, 3], 0, false, false⟩ ⟨"alice", 10, 0⟩ 1 2 3
    (by decide) rfl rfl rfl (by decide) rfl (by norm_num [getBal])


/-- C9 (counterexample): with bet 1.111 and a winning draw, /coin/start
credits and reports round(2×1.111, 2) = 2.22, which is not exactly
2 × bet = 2.222. -/
theorem C9_counterexample_prize_rounding :
    (coin_start stBob20 7 "ton" (1111/1000) "heads" 0 "g9").2 =
      .ok (.coin "heads" true (111/50)) ∧ (111/50 : ℚ) ≠ 2 * (1111/1000) := by
  norm_num [coin_start, stBob20, getBal, setBal, updUsers, putCache, round2,
    pyRound0, strLower_ton]

/-- C9 (amended): for every /coin/start request with a valid choice, valid
currency and sufficient balance: on a win the reported side equals the chosen
side and the credited prize is round(2 × bet, 2) — exactly 2 × bet only when
2 × bet has at most two decimals; on a loss the reported side is the opposite
side and the prize is 0; a completed Game Log record with game="Coin" is
appended regardless of outcome. -/
theorem C9_amended_coin_contract (s : St) (uid : ℤ) (cur : String) (bet : ℚ)
    (choice : String) (r : ℚ) (gid : String) (u : UserRow)
    (hchoice : choice = "heads" ∨ choice = "tails")
    (hcur : strLower cur = "ton" ∨ strLower cur = "usdt")
    (hu : s.db.users uid = some u)
    (hbal : bet ≤ getBal u (strLower cur))
    (hg : s.db.games.any (fun g0 => g0.id == gid) = false) :
    (r < 2 / 12 →
      (coin_start s uid cur bet choice r gid).2 =
        .ok (.coin choice true (round2 (bet * 2))) ∧
      (coin_start s uid cur bet choice r gid).1.db.users uid =
        some (setBal u (strLower cur) (getBal u (strLower cur) - bet + round2 (bet * 2))) ∧
      (coin_start s uid cur bet choice r gid).1.db.games =
        s.db.games ++ [⟨gid, uid, "Coin", bet, "win", true⟩]) ∧
    (¬(r < 2 / 12) →
      (coin_start s uid cur bet choice r gid).2 =
        .ok (.coin (if choice = "heads" then "tails" else "heads") false 0) ∧
      (coin_start s uid cur bet choice r gid).1.db.users uid =
        some (setBal u (strLower cur) (getBal u (strLower cur) - bet)) ∧
      (coin_start s uid cur bet choice r gid).1.db.games =
        s.db.games ++ [⟨gid, uid, "Coin", bet, "lose", false⟩]) := by
  simp only [coin_start]
  rw [if_pos hchoice, if_pos hcur]
  simp only [hu]
  rw [if_neg (not_lt.2 hbal)]
  constructor
  · intro hr
    simp [hr, hg, updUsers, hu, getBal_setBal, setBal_setBal]
  · intro hr
    simp [hr, hg, updUsers, hu]

/-- C9 (witness): the coin contract at a concrete winning draw. -/
theorem C9_amended_coin_contract_witness :
    (coin_start stBob20 7 "ton" 2 "heads" 0 "gw9").2 =
      .ok (.coin "heads" true (round2 (2 * 2))) ∧
    (coin_start stBob20 7 "ton" 2 "heads" 0 "gw9").1.db.users 7 =
      some (setBal ⟨"bob", 20, 0⟩ (strLower "ton")
        (getBal ⟨"bob", 20, 0⟩ (strLower "ton") - 2 + round2 (2 * 2))) ∧
    (coin_start stBob20 7 "ton" 2 "heads" 0 "gw9").1.db.games =
      stBob20.db.games ++ [⟨"gw9", 7, "Coin", 2, "win", true⟩] :=
  (C9_amended_coin_contract stBob20 7 "ton" 2 "heads" 0 "gw9" ⟨"bob", 20, 0⟩
    (Or.inl rfl) (Or.inl strLower_ton) (by decide)
    (by norm_num [getBal, strLower_ton]) rfl).1 (by norm_num)

set_option maxHeartbeats 2000000 in
/-- C10: the in-memory balance cache is write-only: for every modelled
endpoint, two runs from states with the same database but arbitrary different
cache contents produce the same response and the same resulting database — in
particular /balance/subscribe polls the database directly and the cache can
never make a stale or fabricated balance visible to a client. -/
theorem C10_cache_write_only (op : Op) (db : DB) (c1 c2 : ℤ → Option (ℚ × ℚ)) :
    (applyOp ⟨db, c1⟩ op).2 = (applyOp ⟨db, c2⟩ op).2 ∧
    (applyOp ⟨db, c1⟩ op).1.db = (applyOp ⟨db, c2⟩ op).1.db := by
  cases op <;>
    simp only [applyOp, init_user, update_balance, add_prize, record_game,
      finishGame, coin_start, boxes_start, start_safe_game, safe_guess,
      safe_hint, subscribe_balance, get_balance, force_balance, get_games] <;>
    (repeat' split) <;> refine ⟨?_, ?_⟩ <;> first | rfl | trivial

end MiniApp
